import Mathlib

/-!
Verification of the reactive-function library (src/index.js): a shallow
embedding of the dependency-propagation engine.  Nodes are reactive
properties identified by numeric ids (the JS code uses `String(counter)`
keys, whose `Object.keys` iteration order is ascending numeric order;
we model ids as `Nat` and keep the changed-set sorted ascending).

External collaborators (the `reactive-property` observable cells and the
`graph-data-structure` directed graph) are not part of this repository's
source; they are modelled from the specification's collaborator contracts
(spec sections 4.2 and 6) and from this repository's own README where it
documents their behavior.
-/

namespace ReactiveFunction

/-- A model of JS runtime values.  The JS `undefined` marker is modelled
separately as `Option.none`; `Value` covers defined values, including
`null`, `0`, `false` and the empty array, which all count as defined. -/
inductive Value where
  | null : Value
  | bool : Bool → Value
  | int : Int → Value
  | str : String → Value
  | arr : List Value → Value

/-- Property ids assigned by `assignId` (JS: `String(counter)`, modelled
as the counter value itself). -/
abbrev Id := Nat

/-- External object identity of a reactive property (a reference to an
observable cell or to a synthesized no-op output function). -/
abbrev Ref := Nat

/-- Exceptions the modelled code can raise.  `invalidInput` models
`throw new Error("Attempting to use an undefined property as a reactive
function input.")` (src/index.js line 49); `typeErrorNotAFunction` models
the TypeError raised when `property.evaluate` or `callback` is not a
function; `typeErrorUndefined` models the TypeError raised when reading a
property of `undefined` (e.g. `inputs[i]` after `destroy` cleared the
references).  `destroyedBinding` and `notASetter` are the specification's
taxonomy names; the source never raises them, and they exist here only so
that theorems can state that fact. -/
inductive Err where
  | invalidInput : Err
  | typeErrorNotAFunction : Err
  | typeErrorUndefined : Err
  | destroyedBinding : Err
  | notASetter : Err
  deriving DecidableEq

/-- Association-list lookup (models JS object property access). -/
def alookup {β : Type} (k : Nat) : List (Nat × β) → Option β
  | [] => none
  | (a, b) :: t => if a = k then some b else alookup k t

/-- Association-list update/insert (models JS object property assignment). -/
def aset {β : Type} (k : Nat) (v : β) : List (Nat × β) → List (Nat × β)
  | [] => [(k, v)]
  | (a, b) :: t => if a = k then (k, v) :: t else (a, b) :: aset k v t

/-- Association-list removal (models JS `delete obj[k]`). -/
def aremove {β : Type} (k : Nat) (l : List (Nat × β)) : List (Nat × β) :=
  l.filter (fun p => p.1 ≠ k)

/-- Returns true if the given object is undefined (src/index.js lines
168-170: `obj === void 0`).  JS `undefined` is modelled as `none`;
every `some` value, including `null`, is not undefined. -/
def isUndefined {α : Type} (obj : Option α) : Bool :=
  obj.isNone

/-- Returns true if all elements of the given array are defined
(src/index.js lines 161-163: `!arr.some(isUndefined)`). -/
def defined {α : Type} (arr : List (Option α)) : Bool :=
  !(arr.any isUndefined)

/-- Sorted-ascending duplicate-free insertion into the changed-set.
Models marking `changed[id] = true` on a JS object whose keys are numeric
strings: membership is idempotent and `Object.keys` iterates ascending. -/
def insertSorted (n : Nat) : List Nat → List Nat
  | [] => [n]
  | m :: t =>
    if n = m then m :: t
    else if n < m then n :: m :: t
    else m :: insertSorted n t

/-- Modelled from the spec: the external `graph-data-structure`
collaborator (spec section 4.2).  Nodes in insertion order plus adjacency
lists (outgoing edges) in edge-insertion order, giving the deterministic
tie-breaking the spec requires. -/
structure GraphT where
  nodes : List Id
  adj : List (Id × List Id)
  deriving DecidableEq

/-- The empty graph. -/
def GraphT.empty : GraphT := ⟨[], []⟩

/-- Outgoing adjacency list of a node (empty for unknown nodes). -/
def GraphT.adjacent (g : GraphT) (n : Id) : List Id :=
  (alookup n g.adj).getD []

/-- Modelled from the spec: ensure a node exists (inserted by edge
creation). -/
def GraphT.addNode (g : GraphT) (n : Id) : GraphT :=
  if n ∈ g.nodes then g
  else ⟨g.nodes ++ [n], g.adj ++ [(n, [])]⟩

/-- Append `v` to the adjacency list of `u` (first matching entry). -/
def addEdgeAdj (u v : Id) : List (Id × List Id) → List (Id × List Id)
  | [] => []
  | (a, l) :: t =>
    if a = u then (a, l ++ [v]) :: t else (a, l) :: addEdgeAdj u v t

/-- Modelled from the spec: `addEdge(fromId, toId)` creates a directed
edge (spec section 4.2). -/
def GraphT.addEdge (g : GraphT) (u v : Id) : GraphT :=
  let g := (g.addNode u).addNode v
  ⟨g.nodes, addEdgeAdj u v g.adj⟩

/-- Remove every `v` from the adjacency list of `u`. -/
def removeEdgeAdj (u v : Id) : List (Id × List Id) → List (Id × List Id)
  | [] => []
  | (a, l) :: t =>
    if a = u then (a, l.filter (fun x => x ≠ v)) :: t
    else (a, l) :: removeEdgeAdj u v t

/-- Modelled from the spec: `removeEdge(fromId, toId)` removes the edge
(spec section 4.2; the underlying package filters out every copy). -/
def GraphT.removeEdge (g : GraphT) (u v : Id) : GraphT :=
  ⟨g.nodes, removeEdgeAdj u v g.adj⟩

/-- Modelled from the spec: `outdegree(id)` returns the outgoing edge
count (spec section 4.2). -/
def GraphT.outdegree (g : GraphT) (n : Id) : Nat :=
  (g.adjacent n).length

/-- Modelled from the spec: `indegree(id)` returns the incoming edge
count (spec section 4.2) — the number of occurrences of the node across
all adjacency lists. -/
def GraphT.indegree (g : GraphT) (n : Id) : Nat :=
  (g.adj.map (fun p => p.2.count n)).sum

/-- Modelled from the spec: `removeNode(id)` deletes a node; the core
only calls it when both degrees are zero (spec section 4.2). -/
def GraphT.removeNode (g : GraphT) (n : Id) : GraphT :=
  ⟨g.nodes.filter (fun x => x ≠ n), g.adj.filter (fun p => p.1 ≠ n)⟩

/-- Depth-first post-order visit used by the topological sort: mark the
node visited, visit its adjacents, then append it to the finish list.
The state is (visited, finishList); `fuel` bounds recursion depth (any
fuel of at least the node count is sufficient). -/
def dfsVisit (g : GraphT) : Nat → Id → List Id × List Id → List Id × List Id
  | 0, _, st => st
  | fuel + 1, n, st =>
    if n ∈ st.1 then st
    else
      let st1 := (g.adjacent n).foldl
        (fun acc m => dfsVisit g fuel m acc) (n :: st.1, st.2)
      (st1.1, st1.2 ++ [n])

/-- Modelled from the spec: `topologicalSort(seedIds)` of the graph
collaborator (spec section 4.2) — the ordered sequence of node ids
reachable via outgoing edges from the seed set, every edge pointing from
an earlier to a later position, deterministic for a fixed graph state.
Implemented as reversed depth-first post-order; when
`includeSourceNodes` is false (the argument the digest passes), the seed
nodes are marked visited up front and excluded from the result. -/
def GraphT.topologicalSort (g : GraphT) (sourceNodes : List Id)
    (includeSourceNodes : Bool) : List Id :=
  let fuel := g.nodes.length + 1
  let res :=
    if includeSourceNodes then
      sourceNodes.foldl (fun st n => dfsVisit g fuel n st) ([], [])
    else
      sourceNodes.foldl
        (fun st n =>
          (g.adjacent n).foldl (fun st2 m => dfsVisit g fuel m st2) st)
        (sourceNodes, [])
  res.2.reverse

/-- A change listener subscribed on an input property during
construction (src/index.js lines 85-90).  It closes over the binding
that created it and over `property.id`; firing marks that id in the
changed-set and queues a digest. -/
structure Listener where
  bid : Nat
  pid : Id
  deriving DecidableEq

/-- A reactive-function callback: receives the list of input values and
returns the output value together with the list of (observable, value)
side-effect writes it performs while running. -/
abbrev Callback := List Value → Value × List (Ref × Value)

/-- The closure state of one reactive function (src/index.js lines
44-46): the input references, the callback, and the output reference.
On `destroy` these references are cleared, modelled by removing the
binding from the state. -/
structure Binding where
  inputs : List Ref
  callback : Option Callback
  output : Ref

/-- The module-level state of src/index.js: the singleton dependency
graph, the id registry (`assignId`'s counter, the `id` field stored on
each property, and the `properties` reverse-lookup table), the current
value of every observable cell, the synthetic no-op outputs, the
subscribed listeners, the `evaluate` members attached to outputs, the
live binding closures, the changed-set, and the debounce flag.  `log`
is a ghost field recording every callback invocation (binding id and
argument values, in order) so that theorems can count invocations. -/
structure State where
  counter : Nat
  ids : List (Ref × Id)
  propsById : List (Id × Ref)
  values : List (Ref × Value)
  noopRefs : List Ref
  refCounter : Ref
  graph : GraphT
  listeners : List (Ref × Listener)
  evals : List (Ref × Nat)
  bindings : List (Nat × Binding)
  bindingCounter : Nat
  changed : List Id
  queued : Bool
  log : List (Nat × List Value)

/-- The initial module state: empty graph, id counter at 1
(src/index.js line 28), nothing changed.  `refCounter` models the
allocation of fresh function objects for synthetic outputs; scenarios
use external references below 1000. -/
def init : State :=
  { counter := 1, ids := [], propsById := [], values := [], noopRefs := []
  , refCounter := 1000, graph := GraphT.empty, listeners := [], evals := []
  , bindings := [], bindingCounter := 0, changed := [], queued := false
  , log := [] }

/-- Assigns an id to a reactive property and records it in the
`properties` table; does nothing if the property already has an id
(src/index.js lines 27-35). -/
def assignId (s : State) (r : Ref) : State :=
  match alookup r s.ids with
  | some _ => s
  | none =>
    { s with ids := aset r s.counter s.ids
           , propsById := aset s.counter r s.propsById
           , counter := s.counter + 1 }

/-- The id stored on a property (used after construction has assigned
it). -/
def pidOf (s : State) (r : Ref) : Id :=
  (alookup r s.ids).getD 0

/-- Modelled from the spec: the observable collaborator's set-accessor
(spec section 6) — store the new value, then invoke the subscribed
listeners.  Each listener added by this library marks its property id
in the changed-set and queues a digest (src/index.js lines 86-89).
Writes to a synthesized no-op output (`output = function (){}`,
src/index.js line 53) are discarded. -/
def setProp (s : State) (r : Ref) (v : Value) : State :=
  if r ∈ s.noopRefs then s
  else
    let s := { s with values := aset r v s.values }
    (s.listeners.filter (fun rl => rl.1 == r)).foldl
      (fun s rl =>
        { s with changed := insertSorted rl.2.pid s.changed, queued := true })
      s

/-- Modelled from the spec: the observable collaborator's get-accessor
(spec section 6) — the current value, `none` when undefined. -/
def getValue (s : State) (r : Ref) : Option Value :=
  alookup r s.values

/-- The reactive function constructor (src/index.js lines 42-124 minus
the returned `destroy`, which is `destroy` below).  Throws when any
declared input is undefined (lines 48-50); synthesizes a no-op output
when none is given (lines 52-55); attaches `evaluate` to the output
(line 58); assigns ids to the output then the inputs (lines 74-76);
adds one graph edge per input (lines 79-81); and subscribes a change
listener on every input (lines 85-90).  Per this repository's README,
an input is considered changed "when the reactive function is initially
set up": the observable collaborator invokes a newly added listener
immediately when the property already has a defined value.  Returns the
new state and the binding's handle. -/
def construct (s : State) (inputs : List (Option Ref))
    (callback : Option Callback) (output : Option Ref) :
    Except Err (State × Nat) :=
  if !(defined inputs) then Except.error Err.invalidInput
  else
    let inputRefs := inputs.filterMap id
    let (outRef, s) :=
      match output with
      | some r => (r, s)
      | none =>
        (s.refCounter,
          { s with refCounter := s.refCounter + 1
                 , noopRefs := s.refCounter :: s.noopRefs })
    let bid := s.bindingCounter
    let s := assignId s outRef
    let s := inputRefs.foldl assignId s
    let g := inputRefs.foldl
      (fun g i => GraphT.addEdge g (pidOf s i) (pidOf s outRef)) s.graph
    let s := { s with graph := g }
    let s := inputRefs.foldl
      (fun s i =>
        let s := { s with listeners := s.listeners ++ [(i, ⟨bid, pidOf s i⟩)] }
        if (alookup i s.values).isSome then
          { s with changed := insertSorted (pidOf s i) s.changed
                 , queued := true }
        else s)
      s
    let s :=
      { s with evals := aset outRef bid s.evals
             , bindings := aset bid ⟨inputRefs, callback, outRef⟩ s.bindings
             , bindingCounter := bid + 1 }
    Except.ok (s, bid)

/-- The `output.evaluate` member (src/index.js lines 58-72): read the
current value of every input; if all are defined, invoke the callback
with those values (recording the invocation in the ghost log, and
applying the callback's side-effect writes) and assign the result to
the output; otherwise do nothing.  A missing `evaluate` or a missing
callback raises a TypeError. -/
def evaluate (s : State) (r : Ref) : Except Err State :=
  match alookup r s.evals with
  | none => Except.error Err.typeErrorNotAFunction
  | some bid =>
    match alookup bid s.bindings with
    | none => Except.error Err.typeErrorNotAFunction
    | some b =>
      let values := b.inputs.map (fun i => alookup i s.values)
      if defined values then
        match b.callback with
        | none => Except.error Err.typeErrorNotAFunction
        | some cb =>
          let args := values.filterMap id
          let res := cb args
          let s := { s with log := s.log ++ [(bid, args)] }
          let s := res.2.foldl (fun s p => setProp s p.1 p.2) s
          Except.ok (setProp s b.output res.1)
      else Except.ok s

/-- Propagates changes through the dependency graph (src/index.js lines
127-139): snapshot `Object.keys(changed)`, clear the changed-set,
topologically sort the reachable subgraph excluding the seed nodes, map
each id to its property, invoke `evaluate` on each in order, then clear
the changed-set again. -/
def digest (s : State) : Except Err State :=
  let changedIds := s.changed
  let s1 := { s with changed := [] }
  let order := s1.graph.topologicalSort changedIds false
  let props := order.map (fun id => alookup id s1.propsById)
  let folded : Except Err State :=
    props.foldlM
      (fun acc r? =>
        match r? with
        | none => Except.error Err.typeErrorNotAFunction
        | some r => evaluate acc r)
      s1
  folded.map (fun s2 => { s2 with changed := [] })

/-- Removes a node from the graph when its total degree is zero
(src/index.js lines 110-115, inside `destroy`). -/
def removeIfIsolated (g : GraphT) (n : Id) : GraphT :=
  if g.indegree n + g.outdegree n = 0 then g.removeNode n else g

/-- The `destroy` member of the object a construction returns
(src/index.js lines 97-122): remove this binding's change listeners
from its inputs, remove the edges it added, remove property nodes whose
total degree is now zero, delete `output.evaluate`, and clear the
binding's internal references (modelled by removing the binding).  When
the references were already cleared by a previous `destroy`, reading
`inputs[i]` raises a TypeError. -/
def destroy (s : State) (bid : Nat) : Except Err State :=
  match alookup bid s.bindings with
  | none => Except.error Err.typeErrorUndefined
  | some b =>
    let listeners := s.listeners.filter (fun rl => rl.2.bid ≠ bid)
    let g := b.inputs.foldl
      (fun g i => g.removeEdge (pidOf s i) (pidOf s b.output)) s.graph
    let g := (b.inputs ++ [b.output]).foldl
      (fun g r => removeIfIsolated g (pidOf s r)) g
    Except.ok
      { s with listeners := listeners, graph := g
             , evals := aremove b.output s.evals
             , bindings := aremove bid s.bindings }

/-- The state of one debounced function (src/index.js lines 147-158):
whether a run is queued, how many scheduled frame callbacks are
pending, and how many times the wrapped callback (here
`ReactiveFunction.digest`, line 142) has executed. -/
structure DebounceState where
  queued : Bool
  pending : Nat
  runs : Nat
  deriving DecidableEq

/-- The debounce state before any call. -/
def debounceInit : DebounceState := ⟨false, 0, 0⟩

/-- One call to the debounced function (`queueDigest`): if a run is
already queued this is a no-op; otherwise set the flag and schedule one
callback on the next frame (src/index.js lines 149-157). -/
def debounceCall (d : DebounceState) : DebounceState :=
  if d.queued then d
  else { d with queued := true, pending := d.pending + 1 }

/-- The host fires the next frame/tick boundary, running one scheduled
callback: the callback resets the queued flag and then runs the wrapped
function (src/index.js lines 152-155). -/
def frameBoundary (d : DebounceState) : DebounceState :=
  match d.pending with
  | 0 => d
  | n + 1 => { queued := false, pending := n, runs := d.runs + 1 }

/-- Runs `n` successive synchronous calls to the debounced function. -/
def callTimes (n : Nat) (d : DebounceState) : DebounceState :=
  match n with
  | 0 => d
  | k + 1 => callTimes k (debounceCall d)

/-- A one-argument identity callback with no side effects (the callback
`ReactiveFunction.link` uses, src/index.js line 192). -/
def idCb : Callback := fun vs => (vs.getD 0 Value.null, [])

/-- Extracts the constructed state from a successful construction
(used to name concrete states in witnesses). -/
def okState (x : Except Err (State × Nat)) : State :=
  match x with
  | Except.ok p => p.1
  | Except.error _ => init

/-- The diamond scenario: observables a (ref 0), b (ref 1), c (ref 2),
e (ref 3); bindings b = fb(a), c = fc(a), e = fe(b, c).  The ancestor is
set to `v0` and digested, then changed to `v` and digested again. -/
def diamondRun (fb fc : Value → Value) (fe : Value → Value → Value)
    (v0 v : Value) : Except Err State := do
  let (s, _) ← construct init [some 0]
    (some (fun vs => (fb (vs.getD 0 Value.null), []))) (some 1)
  let (s, _) ← construct s [some 0]
    (some (fun vs => (fc (vs.getD 0 Value.null), []))) (some 2)
  let (s, _) ← construct s [some 1, some 2]
    (some (fun vs => (fe (vs.getD 0 Value.null) (vs.getD 1 Value.null), [])))
    (some 3)
  let s := setProp s 0 v0
  let s ← digest s
  let s := setProp s 0 v
  digest s

/-- Side-effect scenario for the changed-set claims: binding 0 maps
x (ref 0) to y (ref 1) and, as a side effect while its callback runs,
sets z (ref 2); binding 1 maps z to w (ref 3), so z has a change
listener.  x is set and a digest is run. -/
def sideEffectRun : Except Err State := do
  let (s, _) ← construct init [some 0]
    (some (fun vs => (vs.getD 0 Value.null, [(2, Value.int 42)]))) (some 1)
  let (s, _) ← construct s [some 2] (some idCb) (some 3)
  let s := setProp s 0 (Value.int 1)
  digest s

/-- Direct-write scenario: binding from x (ref 0) to output y (ref 1);
x is set to 5 and digested, so y holds 5. -/
def directWriteBase : Except Err State := do
  let (s, _) ← construct init [some 0] (some idCb) (some 1)
  let s := setProp s 0 (Value.int 5)
  digest s

/-- External code then writes 7 directly to the output observable. -/
def directWriteRun : Except Err State :=
  directWriteBase.map (fun s => setProp s 1 (Value.int 7))

/-- Destroy scenario with a shared node: binding 0 maps a (ref 0) to
y1 (ref 1), binding 1 maps the same a to y2 (ref 2); binding 0 is then
destroyed.  The ids are y1 = 1, a = 2, y2 = 3. -/
def destroySharedRun : Except Err State := do
  let (s, b1) ← construct init [some 0] (some idCb) (some 1)
  let (s, _) ← construct s [some 0] (some idCb) (some 2)
  destroy s b1

/-- Double-destroy scenario: one binding, destroyed twice. -/
def destroyTwiceRun : Except Err State := do
  let (s, b1) ← construct init [some 0] (some idCb) (some 1)
  let s ← destroy s b1
  destroy s b1

/-- Concrete state for the definedness witness: one binding from
ref 0 (which has no value yet) to ref 1. -/
def c4State : State :=
  okState (construct init [some 0] (some idCb) (some 1))

/-- Concrete state for the destruction witness: one binding from ref 0
to ref 1. -/
def c7State : State :=
  okState (construct init [some 0] (some idCb) (some 1))

/-- Concrete state for the missing-callback witness: one binding from
ref 0 to ref 1 constructed with no callback, and ref 0 then given a
value so that evaluation is not skipped. -/
def c10State : State :=
  setProp (okState (construct init [some 0] none (some 1))) 0 (Value.int 3)

/-! Helper lemmas. -/

/-- Whatever the evaluation pass produced, the digest's final step
clears the changed-set. -/
theorem map_clear_changed (x : Except Err State) (s' : State)
    (h : x.map (fun s2 => { s2 with changed := [] }) = Except.ok s') :
    s'.changed = [] := by
  cases x with
  | error e => simp [Except.map] at h
  | ok a =>
    simp only [Except.map] at h
    cases h
    rfl

/-- A successful digest leaves the changed-set empty (src/index.js line
138: `changed = {}` runs after the evaluation loop). -/
theorem digest_ok_changed (s s' : State) (h : digest s = Except.ok s') :
    s'.changed = [] :=
  map_clear_changed _ s' h

/-- The topological sort of the empty seed set is empty. -/
theorem topologicalSort_nil (g : GraphT) :
    g.topologicalSort [] false = [] := rfl

/-- Firing change listeners does not alter any stored value. -/
theorem listenerFold_values (l : List (Ref × Listener)) (s : State) :
    (l.foldl (fun s rl =>
      { s with changed := insertSorted rl.2.pid s.changed, queued := true })
      s).values = s.values := by
  induction l generalizing s with
  | nil => rfl
  | cons hd tl ih => exact ih _

/-- Looking up a key just set returns the new value. -/
theorem alookup_aset_self {β : Type} (k : Nat) (v : β) (l : List (Nat × β)) :
    alookup k (aset k v l) = some v := by
  induction l with
  | nil => simp [aset, alookup]
  | cons hd tl ih =>
    by_cases h : hd.1 = k
    · simp [aset, alookup, h]
    · simp [aset, alookup, h, ih]

/-- Looking up a removed key fails. -/
theorem alookup_aremove_self {β : Type} (k : Nat) (l : List (Nat × β)) :
    alookup k (aremove k l) = none := by
  induction l with
  | nil => rfl
  | cons hd tl ih =>
    by_cases h : hd.1 = k
    · simpa [aremove, h] using ih
    · simpa [aremove, alookup, h] using ih

/-- Association lists keep no entry for a filtered-out key. -/
theorem alookup_filter_self {β : Type} (m : Nat) (l : List (Nat × β)) :
    alookup m (l.filter (fun p => p.1 ≠ m)) = none := by
  induction l with
  | nil => rfl
  | cons hd tl ih =>
    by_cases h : hd.1 = m
    · simpa [List.filter_cons, h] using ih
    · simpa [List.filter_cons, h, alookup] using ih

/-- Filtering out one key leaves lookups of other keys unchanged. -/
theorem alookup_filter_ne {β : Type} (w m : Nat) (l : List (Nat × β))
    (h : w ≠ m) :
    alookup w (l.filter (fun p => p.1 ≠ m)) = alookup w l := by
  induction l with
  | nil => rfl
  | cons hd tl ih =>
    obtain ⟨a, b⟩ := hd
    simp only [ne_eq, decide_not] at ih
    by_cases hm : a = m
    · simp [List.filter_cons, alookup, hm, Ne.symm h, ih]
    · by_cases hw : a = w
      · simp [List.filter_cons, alookup, hm, hw, h]
      · simp [List.filter_cons, alookup, hm, hw, ih]

/-- A filter that touches no key of the list is the identity. -/
theorem filter_keys_ne {β : Type} (m : Nat) (l : List (Nat × β))
    (h : m ∉ l.map Prod.fst) :
    l.filter (fun p => p.1 ≠ m) = l := by
  apply List.filter_eq_self.mpr
  intro p hp
  have hne : p.1 ≠ m := fun he => h (he ▸ List.mem_map_of_mem Prod.fst hp)
  simpa using hne

/-- Removing an edge does not change which node an adjacency entry
belongs to. -/
theorem removeEdgeAdj_keys (u v : Id) (l : List (Id × List Id)) :
    (removeEdgeAdj u v l).map Prod.fst = l.map Prod.fst := by
  induction l with
  | nil => rfl
  | cons hd tl ih =>
    by_cases h : hd.1 = u
    · simp [removeEdgeAdj, h]
    · simp [removeEdgeAdj, h, ih]

/-- Lookup in an adjacency structure after an edge removal: the list of
u is filtered, all other lists unchanged. -/
theorem alookup_removeEdgeAdj (u v w : Id) (l : List (Id × List Id)) :
    alookup w (removeEdgeAdj u v l) =
      if w = u then (alookup u l).map (fun lst => lst.filter (fun y => y ≠ v))
      else alookup w l := by
  induction l with
  | nil => by_cases h : w = u <;> simp [removeEdgeAdj, alookup, h]
  | cons hd tl ih =>
    obtain ⟨a, lst⟩ := hd
    simp only [ne_eq, decide_not] at ih
    by_cases hu : a = u
    · by_cases hw : a = w
      · have hwu : w = u := hw ▸ hu
        simp [removeEdgeAdj, alookup, hu, hw, hwu]
      · have hwu : ¬ w = u := fun he => hw (hu.trans he.symm)
        have huw : ¬ u = w := fun he => hwu he.symm
        simp [removeEdgeAdj, alookup, hu, hw, hwu, huw]
    · by_cases hw : a = w
      · have hwu : ¬ w = u := fun he => hu (hw.trans he)
        have huw : ¬ u = w := fun he => hwu he.symm
        simp [removeEdgeAdj, alookup, hu, hw, hwu, huw]
      · simp [removeEdgeAdj, alookup, hu, hw, ih]

/-- Adjacency after an edge removal: the list of u is filtered, all
other lists unchanged. -/
theorem adjacent_removeEdge (g : GraphT) (u v w : Id) :
    (g.removeEdge u v).adjacent w =
      if w = u then (g.adjacent u).filter (fun y => y ≠ v)
      else g.adjacent w := by
  show (alookup w (removeEdgeAdj u v g.adj)).getD [] =
    if w = u then ((alookup u g.adj).getD []).filter (fun y => y ≠ v)
    else (alookup w g.adj).getD []
  rw [alookup_removeEdgeAdj]
  by_cases hw : w = u
  · rw [if_pos hw, if_pos hw]
    cases alookup u g.adj with
    | none => rfl
    | some lst => rfl
  · rw [if_neg hw, if_neg hw]

/-- Removing an edge only shrinks adjacency lists. -/
theorem mem_adjacent_removeEdge (g : GraphT) (u v w x : Id)
    (h : x ∈ (g.removeEdge u v).adjacent w) : x ∈ g.adjacent w := by
  rw [adjacent_removeEdge] at h
  by_cases hw : w = u
  · rw [if_pos hw] at h
    subst hw
    exact (List.mem_filter.mp h).1
  · rwa [if_neg hw] at h

/-- After `removeEdge u v`, the adjacency list of u no longer
contains v. -/
theorem not_mem_adjacent_removeEdge_self (g : GraphT) (u v : Id) :
    v ∉ (g.removeEdge u v).adjacent u := by
  rw [adjacent_removeEdge, if_pos rfl]
  intro hmem
  exact absurd (List.mem_filter.mp hmem).2 (by simp)

/-- Removing a node only shrinks adjacency lists. -/
theorem mem_adjacent_removeNode (g : GraphT) (m w x : Id)
    (h : x ∈ (g.removeNode m).adjacent w) : x ∈ g.adjacent w := by
  by_cases hw : w = m
  · subst hw
    have : (g.removeNode w).adjacent w = [] := by
      show (alookup w (g.adj.filter (fun p => p.1 ≠ w))).getD [] = []
      rw [alookup_filter_self]
      rfl
    rw [this] at h
    exact absurd h (List.not_mem_nil x)
  · have : (g.removeNode m).adjacent w = g.adjacent w := by
      show (alookup w (g.adj.filter (fun p => p.1 ≠ m))).getD [] = _
      rw [alookup_filter_ne w m g.adj hw]
      rfl
    rw [this] at h
    exact h

/-- The isolated-node removal only shrinks adjacency lists. -/
theorem mem_adjacent_removeIfIsolated (g : GraphT) (m w x : Id)
    (h : x ∈ (removeIfIsolated g m).adjacent w) : x ∈ g.adjacent w := by
  unfold removeIfIsolated at h
  by_cases hc : g.indegree m + g.outdegree m = 0
  · rw [if_pos hc] at h
    exact mem_adjacent_removeNode g m w x h
  · rw [if_neg hc] at h
    exact h

/-- Removing a node preserves the out-degree of every other node. -/
theorem outdegree_removeNode (g : GraphT) (m w : Id) (h : w ≠ m) :
    (g.removeNode m).outdegree w = g.outdegree w := by
  show ((alookup w (g.adj.filter (fun p => p.1 ≠ m))).getD []).length = _
  rw [alookup_filter_ne w m g.adj h]
  rfl

/-- Dropping the entries of a key whose adjacency list is empty does
not change occurrence counts, provided keys are unique. -/
theorem count_sum_filter (m w : Id) (l : List (Id × List Id))
    (hout : (alookup m l).getD [] = [])
    (hnd : (l.map Prod.fst).Nodup) :
    ((l.filter (fun p => p.1 ≠ m)).map (fun p => p.2.count w)).sum =
      (l.map (fun p => p.2.count w)).sum := by
  induction l with
  | nil => rfl
  | cons hd tl ih =>
    obtain ⟨a, lst⟩ := hd
    simp only [List.map_cons, List.nodup_cons] at hnd
    by_cases hm : a = m
    · have hlst : lst = [] := by simpa [alookup, hm] using hout
      have htl : tl.filter (fun p => p.1 ≠ m) = tl :=
        filter_keys_ne m tl (by rw [← hm]; exact hnd.1)
      simp only [ne_eq, decide_not] at htl
      simp [List.filter_cons, hm, htl, hlst]
    · have htl : (alookup m tl).getD [] = [] := by
        simpa [alookup, hm] using hout
      have ih2 := ih htl hnd.2
      simp only [ne_eq, decide_not] at ih2
      simp [List.filter_cons, hm, ih2]

/-- Removing a node with out-degree zero preserves every in-degree,
provided adjacency keys are unique. -/
theorem indegree_removeNode (g : GraphT) (m w : Id)
    (hnd : (g.adj.map Prod.fst).Nodup) (hout : g.outdegree m = 0) :
    (g.removeNode m).indegree w = g.indegree w := by
  show ((g.adj.filter (fun p => p.1 ≠ m)).map (fun p => p.2.count w)).sum = _
  exact count_sum_filter m w g.adj
    (List.length_eq_zero.mp hout) hnd

/-- Removing a node only shrinks the node list. -/
theorem mem_nodes_removeNode (g : GraphT) (m w : Id)
    (h : w ∈ (g.removeNode m).nodes) : w ∈ g.nodes :=
  (List.mem_filter.mp h).1

/-- A removed node is gone from the node list. -/
theorem not_mem_nodes_removeNode_self (g : GraphT) (m : Id) :
    m ∉ (g.removeNode m).nodes := by
  intro h
  have := (List.mem_filter.mp h).2
  simp at this

/-- Adjacency keys stay unique under edge removal. -/
theorem nodup_keys_removeEdge (g : GraphT) (u v : Id)
    (h : (g.adj.map Prod.fst).Nodup) :
    ((g.removeEdge u v).adj.map Prod.fst).Nodup := by
  show ((removeEdgeAdj u v g.adj).map Prod.fst).Nodup
  rw [removeEdgeAdj_keys]
  exact h

/-- Adjacency keys stay unique under node removal. -/
theorem nodup_keys_removeNode (g : GraphT) (m : Id)
    (h : (g.adj.map Prod.fst).Nodup) :
    ((g.removeNode m).adj.map Prod.fst).Nodup :=
  ((List.filter_sublist g.adj).map Prod.fst).nodup h

/-- Adjacency keys stay unique under isolated-node removal. -/
theorem nodup_keys_removeIfIsolated (g : GraphT) (m : Id)
    (h : (g.adj.map Prod.fst).Nodup) :
    ((removeIfIsolated g m).adj.map Prod.fst).Nodup := by
  unfold removeIfIsolated
  by_cases hc : g.indegree m + g.outdegree m = 0
  · rw [if_pos hc]; exact nodup_keys_removeNode g m h
  · rw [if_neg hc]; exact h

/-- One isolated-node-removal step preserves the invariant "the node is
gone or still has an edge", provided adjacency keys are unique. -/
theorem removeIfIsolated_pres (g : GraphT) (m n : Id)
    (hnd : (g.adj.map Prod.fst).Nodup)
    (h : n ∉ g.nodes ∨ g.indegree n + g.outdegree n ≠ 0) :
    n ∉ (removeIfIsolated g m).nodes ∨
      (removeIfIsolated g m).indegree n + (removeIfIsolated g m).outdegree n ≠ 0 := by
  unfold removeIfIsolated
  by_cases hc : g.indegree m + g.outdegree m = 0
  · rw [if_pos hc]
    cases h with
    | inl hl => exact Or.inl (fun hmem => hl (mem_nodes_removeNode g m n hmem))
    | inr hr =>
      by_cases hnm : n = m
      · subst hnm
        exact absurd hc hr
      · refine Or.inr ?_
        rw [outdegree_removeNode g m n hnm,
            indegree_removeNode g m n hnd (Nat.eq_zero_of_add_eq_zero_left hc)]
        exact hr
  · rw [if_neg hc]
    exact h

/-- After its own isolated-node-removal step, a node is gone or still
has an edge. -/
theorem removeIfIsolated_self (g : GraphT) (n : Id) :
    n ∉ (removeIfIsolated g n).nodes ∨
      (removeIfIsolated g n).indegree n + (removeIfIsolated g n).outdegree n ≠ 0 := by
  unfold removeIfIsolated
  by_cases hc : g.indegree n + g.outdegree n = 0
  · rw [if_pos hc]
    exact Or.inl (not_mem_nodes_removeNode_self g n)
  · rw [if_neg hc]
    exact Or.inr hc

/-- The isolated-node-removal fold preserves key uniqueness. -/
theorem foldl_removeIfIsolated_nodup (pid : Ref → Id) (l : List Ref)
    (g : GraphT) (hnd : (g.adj.map Prod.fst).Nodup) :
    (((l.foldl (fun g r => removeIfIsolated g (pid r)) g).adj.map
      Prod.fst).Nodup) := by
  induction l generalizing g with
  | nil => exact hnd
  | cons hd tl ih => exact ih _ (nodup_keys_removeIfIsolated g (pid hd) hnd)

/-- The isolated-node-removal fold preserves the invariant "the node is
gone or still has an edge". -/
theorem foldl_removeIfIsolated_pres (pid : Ref → Id) (l : List Ref)
    (g : GraphT) (n : Id) (hnd : (g.adj.map Prod.fst).Nodup)
    (h : n ∉ g.nodes ∨ g.indegree n + g.outdegree n ≠ 0) :
    n ∉ (l.foldl (fun g r => removeIfIsolated g (pid r)) g).nodes ∨
      (l.foldl (fun g r => removeIfIsolated g (pid r)) g).indegree n +
        (l.foldl (fun g r => removeIfIsolated g (pid r)) g).outdegree n ≠ 0 := by
  induction l generalizing g with
  | nil => exact h
  | cons hd tl ih =>
    exact ih _ (nodup_keys_removeIfIsolated g (pid hd) hnd)
      (removeIfIsolated_pres g (pid hd) n hnd h)

/-- After the isolated-node-removal fold, every processed node is gone
from the graph or still has at least one edge. -/
theorem foldl_removeIfIsolated_mem (pid : Ref → Id) (l : List Ref)
    (g : GraphT) (hnd : (g.adj.map Prod.fst).Nodup) :
    ∀ r ∈ l,
      pid r ∉ (l.foldl (fun g r => removeIfIsolated g (pid r)) g).nodes ∨
      (l.foldl (fun g r => removeIfIsolated g (pid r)) g).indegree (pid r) +
        (l.foldl (fun g r => removeIfIsolated g (pid r)) g).outdegree (pid r)
        ≠ 0 := by
  induction l generalizing g with
  | nil => intro r hr; exact absurd hr (List.not_mem_nil r)
  | cons hd tl ih =>
    intro r hr
    cases List.mem_cons.mp hr with
    | inl he =>
      subst he
      exact foldl_removeIfIsolated_pres pid tl (removeIfIsolated g (pid r))
        (pid r) (nodup_keys_removeIfIsolated g (pid r) hnd)
        (removeIfIsolated_self g (pid r))
    | inr ht =>
      exact ih (removeIfIsolated g (pid hd)) (nodup_keys_removeIfIsolated g (pid hd) hnd) r ht

/-- The edge-removal fold only shrinks adjacency lists. -/
theorem foldl_removeEdge_not_mem (pid : Ref → Id) (t : Id) (l : List Ref)
    (g : GraphT) (w x : Id) (h : x ∉ g.adjacent w) :
    x ∉ (l.foldl (fun g i => g.removeEdge (pid i) t) g).adjacent w := by
  induction l generalizing g with
  | nil => exact h
  | cons hd tl ih =>
    exact ih _ (fun hmem =>
      h (mem_adjacent_removeEdge g (pid hd) t w x hmem))

/-- After the edge-removal fold, no processed input's adjacency list
contains the target. -/
theorem foldl_removeEdge_mem (pid : Ref → Id) (t : Id) (l : List Ref)
    (g : GraphT) :
    ∀ i ∈ l,
      t ∉ (l.foldl (fun g i => g.removeEdge (pid i) t) g).adjacent (pid i) := by
  induction l generalizing g with
  | nil => intro i hi; exact absurd hi (List.not_mem_nil i)
  | cons hd tl ih =>
    intro i hi
    cases List.mem_cons.mp hi with
    | inl he =>
      subst he
      exact foldl_removeEdge_not_mem pid t tl (g.removeEdge (pid i) t)
        (pid i) t (not_mem_adjacent_removeEdge_self g (pid i) t)
    | inr ht => exact ih (g.removeEdge (pid hd) t) i ht

/-- The edge-removal fold preserves key uniqueness. -/
theorem foldl_removeEdge_nodup (pid : Ref → Id) (t : Id) (l : List Ref)
    (g : GraphT) (hnd : (g.adj.map Prod.fst).Nodup) :
    (((l.foldl (fun g i => g.removeEdge (pid i) t) g).adj.map
      Prod.fst).Nodup) := by
  induction l generalizing g with
  | nil => exact hnd
  | cons hd tl ih => exact ih _ (nodup_keys_removeEdge g (pid hd) t hnd)

/-- The isolated-node-removal fold only shrinks adjacency lists. -/
theorem foldl_removeIfIsolated_not_mem (pid : Ref → Id) (l : List Ref)
    (g : GraphT) (w x : Id) (h : x ∉ g.adjacent w) :
    x ∉ (l.foldl (fun g r => removeIfIsolated g (pid r)) g).adjacent w := by
  induction l generalizing g with
  | nil => exact h
  | cons hd tl ih =>
    exact ih _ (fun hmem =>
      h (mem_adjacent_removeIfIsolated g (pid hd) w x hmem))

/-! Claim theorems. -/

set_option maxHeartbeats 2000000 in
/-- C1.  Diamond property: with a common ancestor a feeding two
independent computed nodes b = fb(a) and c = fc(a) that both feed
e = fe(b, c), after one change of the ancestor to `v` a single digest
invokes e's combining function exactly once, with both input values
already reflecting the latest ancestor value (`fb v` and `fc v`), and
evaluates both ancestors b and c before e. -/
theorem c1_diamond (fb fc : Value → Value) (fe : Value → Value → Value)
    (v0 v : Value) :
    (diamondRun fb fc fe v0 v).map (fun s => s.log.drop 3) =
      Except.ok [(1, [v]), (0, [v]), (2, [fb v, fc v])] ∧
    (diamondRun fb fc fe v0 v).map
        (fun s => (s.log.drop 3).filter (fun e => e.1 == 2)) =
      Except.ok [(2, [fb v, fc v])] := by
  have hlog : (diamondRun fb fc fe v0 v).map (fun s => s.log) =
      Except.ok [(1, [v0]), (0, [v0]), (2, [fb v0, fc v0]),
                 (1, [v]), (0, [v]), (2, [fb v, fc v])] := by
    simp [diamondRun, construct, digest, evaluate, setProp, getValue, assignId,
      alookup, aset, aremove, insertSorted, defined, isUndefined, init,
      GraphT.topologicalSort, dfsVisit, GraphT.adjacent, GraphT.addEdge,
      GraphT.addNode, GraphT.empty, addEdgeAdj, pidOf, idCb, Except.map,
      Except.bind, bind, pure, Except.pure]
  cases hx : diamondRun fb fc fe v0 v with
  | error e => rw [hx] at hlog; simp [Except.map] at hlog
  | ok s =>
    rw [hx] at hlog
    simp only [Except.map] at hlog ⊢
    injection hlog with h
    rw [h]
    exact ⟨rfl, rfl⟩

/-- C2, counterexample.  An observable (z, ref 2, id 4) with a change
listener is set as a side effect while the digest evaluates a binding:
the write itself lands (z holds 42), but after `digest()` returns the
changed-set is empty — the marking recorded during evaluation did not
survive, so nothing is left for the next digest pass to propagate. -/
theorem c2_counterexample :
    sideEffectRun.map (fun s => (s.changed, getValue s 2)) =
      Except.ok ([], some (Value.int 42)) ∧
    (sideEffectRun.bind digest).map (fun s => s.log) =
      sideEffectRun.map (fun s => s.log) :=
  ⟨rfl, rfl⟩

/-- C2, amended.  A change marking that occurs while a digest pass is
evaluating bindings is recorded in the changed-set at that moment, but
`digest()` assigns a fresh empty changed-set again after the evaluation
loop (src/index.js line 138), so after a successful `digest()` returns
the changed-set is always empty and the marking is not propagated by
the next digest pass. -/
theorem c2_amended (s s' : State) (h : digest s = Except.ok s') :
    s'.changed = [] :=
  digest_ok_changed s s' h

/-- C2, amended, witness at the empty state. -/
theorem c2_amended_witness :
    digest init = Except.ok { init with changed := [] } ∧
    ({ init with changed := [] } : State).changed = [] :=
  ⟨rfl, c2_amended init { init with changed := [] } rfl⟩

/-- C3.  Digest idempotence: a second digest immediately after a
successful digest, with no intervening input changes, performs no
evaluation at all — it succeeds and leaves the invocation log (and the
whole state) unchanged except for the already-empty changed-set. -/
theorem c3_idempotent (s s' : State) (h : digest s = Except.ok s') :
    digest s' = Except.ok { s' with changed := [] } ∧
    ({ s' with changed := [] } : State).log = s'.log := by
  have hc : s'.changed = [] := digest_ok_changed s s' h
  constructor
  · show digest s' = _
    unfold digest
    rw [hc]
    rfl
  · rfl

/-- C3, witness: a digest of the empty state followed by a second
digest. -/
theorem c3_witness :
    digest { init with changed := [] } =
      Except.ok { { init with changed := [] } with changed := [] } ∧
    ({ { init with changed := [] } with changed := [] } : State).log =
      ({ init with changed := [] } : State).log :=
  c3_idempotent init { init with changed := [] } rfl

/-- C4.  Definedness gating of `evaluate`: whenever any input's current
value is the absent (undefined) marker, evaluation is skipped entirely
— the combining function is not invoked, no write occurs, no error is
raised, and the state is returned untouched; and the values null, 0,
false and the empty collection all count as defined. -/
theorem c4_definedness (s : State) (r : Ref) (bid : Nat) (b : Binding)
    (h1 : alookup r s.evals = some bid)
    (h2 : alookup bid s.bindings = some b)
    (h3 : ∃ i ∈ b.inputs, alookup i s.values = none) :
    evaluate s r = Except.ok s ∧
    defined [some Value.null, some (Value.int 0), some (Value.bool false),
             some (Value.arr [])] = true := by
  constructor
  · have hfalse : defined (b.inputs.map (fun i => alookup i s.values)) = false := by
      obtain ⟨i, hi, hv⟩ := h3
      simp only [defined, Bool.not_eq_false', List.any_eq_true]
      exact ⟨alookup i s.values, List.mem_map_of_mem _ hi, by rw [hv]; rfl⟩
    simp [evaluate, h1, h2, hfalse]
  · rfl

/-- C4, witness: a binding whose single input has no value yet is
skipped by evaluate. -/
theorem c4_witness :
    evaluate c4State 1 = Except.ok c4State ∧
    defined [some Value.null, some (Value.int 0), some (Value.bool false),
             some (Value.arr [])] = true :=
  c4_definedness c4State 1 0 ⟨[0], some idCb, 1⟩ rfl rfl ⟨0, by decide, rfl⟩

/-- C5.  Construction-time input validation: whenever some declared
input reference is the undefined marker, the constructor raises the
invalid-input error synchronously (src/index.js lines 48-50, before any
id assignment, edge creation or listener subscription), and no binding
or new state is produced. -/
theorem c5_invalid_input (s : State) (inputs : List (Option Ref))
    (callback : Option Callback) (output : Option Ref)
    (h : none ∈ inputs) :
    construct s inputs callback output = Except.error Err.invalidInput := by
  have hd : defined inputs = false := by
    simp only [defined, Bool.not_eq_false', List.any_eq_true]
    exact ⟨none, h, rfl⟩
  unfold construct
  rw [hd]
  rfl

/-- C5, witness: constructing with a missing second input fails. -/
theorem c5_witness :
    construct init [some 0, none] (some idCb) (some 1) =
      Except.error Err.invalidInput :=
  c5_invalid_input init [some 0, none] (some idCb) (some 1) (by decide)

/-- C6, counterexample.  After a digest the output y (ref 1) holds 5; a
direct external write of 7 to the output's accessor neither raises any
error nor leaves the stored value unchanged: the write succeeds and the
stored value becomes 7. -/
theorem c6_counterexample :
    directWriteBase.map (fun s => getValue s 1) =
      Except.ok (some (Value.int 5)) ∧
    directWriteRun.map (fun s => getValue s 1) =
      Except.ok (some (Value.int 7)) ∧
    Value.int 7 ≠ Value.int 5 :=
  ⟨rfl, rfl, by simp⟩

/-- C6, amended.  There is no setter rejection: writing directly to a
binding's output observable succeeds through the collaborator's
set-accessor and updates the stored value; only the synthesized no-op
output (`output = function (){}`, created when no output is supplied)
discards writes, silently and without error.  No NotASetterError is
raised anywhere. -/
theorem c6_amended (s : State) (r : Ref) (v : Value) :
    (r ∉ s.noopRefs → getValue (setProp s r v) r = some v) ∧
    (r ∈ s.noopRefs → setProp s r v = s) := by
  constructor
  · intro h
    unfold setProp
    rw [if_neg h]
    show getValue _ r = some v
    unfold getValue
    rw [listenerFold_values]
    exact alookup_aset_self r v s.values
  · intro h
    unfold setProp
    rw [if_pos h]

/-- C6, amended, witness: a real output accepts the write; a no-op
output discards it. -/
theorem c6_amended_witness :
    getValue (setProp init 5 (Value.int 1)) 5 = some (Value.int 1) ∧
    setProp { init with noopRefs := [7] } 7 (Value.int 1) =
      { init with noopRefs := [7] } :=
  ⟨(c6_amended init 5 (Value.int 1)).1 (by decide),
   (c6_amended { init with noopRefs := [7] } 7 (Value.int 1)).2 (by decide)⟩

/-- C7, counterexample.  Two bindings share the input a (id 2); binding
0 (a → y1, edge 2 → 1) is destroyed, yet the other binding's edge
2 → 3 still touches a, binding 0's former input: the graph does not
contain zero edges touching the destroyed binding's former inputs (a's
out-degree is still 1). -/
theorem c7_counterexample :
    destroySharedRun.map
        (fun s => (s.graph.adj, s.graph.nodes, s.graph.outdegree 2)) =
      Except.ok ([(2, [3]), (3, [])], [2, 3], 1) :=
  rfl

/-- C7, amended.  After `destroy()` (on a graph whose adjacency entries
have unique keys, as the API maintains): every listener of the binding
is unsubscribed, every (input, output) edge the binding added is
removed — though edges added by other bindings may still touch the
former inputs/output — and no node of the binding remains in the graph
with total degree zero (nodes are removed from the graph exactly by the
degree-zero check of src/index.js lines 110-115). -/
theorem c7_amended (s : State) (bid : Nat) (b : Binding)
    (h : alookup bid s.bindings = some b)
    (hnd : (s.graph.adj.map Prod.fst).Nodup) :
    ∃ s', destroy s bid = Except.ok s' ∧
      (∀ rl ∈ s'.listeners, rl.2.bid ≠ bid) ∧
      (∀ i ∈ b.inputs,
        pidOf s b.output ∉ s'.graph.adjacent (pidOf s i)) ∧
      (∀ p ∈ b.inputs ++ [b.output],
        pidOf s p ∉ s'.graph.nodes ∨
        s'.graph.indegree (pidOf s p) + s'.graph.outdegree (pidOf s p) ≠ 0) := by
  simp only [destroy, h]
  refine ⟨_, rfl, ?_, ?_, ?_⟩
  · intro rl hrl he
    have hf := (List.mem_filter.mp hrl).2
    rw [he] at hf
    simp at hf
  · intro i hi
    exact foldl_removeIfIsolated_not_mem (fun r => pidOf s r)
      (b.inputs ++ [b.output]) _ _ _
      (foldl_removeEdge_mem (fun r => pidOf s r) (pidOf s b.output)
        b.inputs s.graph i hi)
  · exact foldl_removeIfIsolated_mem (fun r => pidOf s r)
      (b.inputs ++ [b.output]) _
      (foldl_removeEdge_nodup (fun r => pidOf s r) (pidOf s b.output)
        b.inputs s.graph hnd)

/-- C7, amended, witness: a single binding from ref 0 (id 2) to ref 1
(id 1), destroyed. -/
theorem c7_amended_witness :
    ∃ s', destroy c7State 0 = Except.ok s' ∧
      (∀ rl ∈ s'.listeners, rl.2.bid ≠ 0) ∧
      (∀ i ∈ [(0 : Ref)],
        pidOf c7State 1 ∉ s'.graph.adjacent (pidOf c7State i)) ∧
      (∀ p ∈ [(0 : Ref)] ++ [1],
        pidOf c7State p ∉ s'.graph.nodes ∨
        s'.graph.indegree (pidOf c7State p) +
          s'.graph.outdegree (pidOf c7State p) ≠ 0) :=
  c7_amended c7State 0 ⟨[0], some idCb, 1⟩ rfl (by decide)

/-- C8, counterexample.  A second `destroy()` on the same binding does
not raise a DestroyedBindingError: it fails with the TypeError produced
by reading `inputs[i]` from the references the first destroy cleared
(src/index.js line 121). -/
theorem c8_counterexample :
    destroyTwiceRun = Except.error Err.typeErrorUndefined ∧
    Err.typeErrorUndefined ≠ Err.destroyedBinding :=
  ⟨rfl, by decide⟩

/-- C8, amended.  `destroy()` clears the binding's internal references,
so a second `destroy()` (the only operation the returned handle
exposes) fails fast — but with an unguarded TypeError from reading a
property of undefined, not with a DestroyedBindingError; no such guard
exists in the code. -/
theorem c8_amended (s : State) (bid : Nat) (b : Binding)
    (h : alookup bid s.bindings = some b) :
    ∃ s', destroy s bid = Except.ok s' ∧
      alookup bid s'.bindings = none ∧
      destroy s' bid = Except.error Err.typeErrorUndefined := by
  refine ⟨_, by unfold destroy; rw [h], ?_, ?_⟩
  · exact alookup_aremove_self bid s.bindings
  · unfold destroy
    rw [show alookup bid (aremove bid s.bindings) = none from
      alookup_aremove_self bid s.bindings]

/-- C8, amended, witness: one binding, destroyed, then destroyed
again. -/
theorem c8_amended_witness :
    ∃ s', destroy (okState (construct init [some 0] (some idCb) (some 1))) 0 =
        Except.ok s' ∧
      alookup 0 s'.bindings = none ∧
      destroy s' 0 = Except.error Err.typeErrorUndefined :=
  c8_amended (okState (construct init [some 0] (some idCb) (some 1))) 0
    ⟨[0], some idCb, 1⟩ rfl

/-- C9.  Debounce collapsing: any number n + 1 of synchronous
`queueDigest()` calls before the next frame boundary leave exactly one
scheduled run with the pending flag set (calls while pending are
no-ops); when the boundary fires, the wrapped digest executes exactly
once and the flag resets; a later call can then queue a new digest. -/
theorem c9_debounce (n : Nat) :
    callTimes (n + 1) debounceInit = ⟨true, 1, 0⟩ ∧
    debounceCall (callTimes (n + 1) debounceInit) =
      callTimes (n + 1) debounceInit ∧
    frameBoundary (callTimes (n + 1) debounceInit) = ⟨false, 0, 1⟩ ∧
    debounceCall (frameBoundary (callTimes (n + 1) debounceInit)) =
      ⟨true, 1, 1⟩ := by
  have fixed : ∀ k, callTimes k ⟨true, 1, 0⟩ = ⟨true, 1, 0⟩ := by
    intro k
    induction k with
    | zero => rfl
    | succ k ih => exact ih
  have h1 : callTimes (n + 1) debounceInit = ⟨true, 1, 0⟩ := fixed n
  refine ⟨h1, ?_, ?_, ?_⟩ <;> rw [h1] <;> rfl

/-- C10.  No construction-time validation of the combining function:
for any callback option (absent or of any shape), construction succeeds
whenever all inputs are defined; the missing callback only causes a
failure later, when `evaluate` runs with every input value defined and
reaches `callback.apply`. -/
theorem c10_no_callback_validation (s : State) (inputs : List (Option Ref))
    (callback : Option Callback) (output : Option Ref)
    (h : defined inputs = true) :
    (construct s inputs callback output).isOk = true ∧
    (∀ (s2 : State) (r : Ref) (bid : Nat) (b : Binding),
      alookup r s2.evals = some bid →
      alookup bid s2.bindings = some b →
      b.callback = none →
      defined (b.inputs.map (fun i => alookup i s2.values)) = true →
      evaluate s2 r = Except.error Err.typeErrorNotAFunction) := by
  constructor
  · unfold construct
    rw [h]
    rfl
  · intro s2 r bid b h1 h2 h3 h4
    simp [evaluate, h1, h2, h3, h4]

/-- C10, witness: construction with an absent callback succeeds, and
evaluation with the input defined then fails with the TypeError. -/
theorem c10_witness :
    (construct init [some 0] none (some 1)).isOk = true ∧
    evaluate c10State 1 = Except.error Err.typeErrorNotAFunction :=
  ⟨(c10_no_callback_validation init [some 0] none (some 1) rfl).1,
   (c10_no_callback_validation init [some 0] none (some 1) rfl).2
     c10State 1 0 ⟨[0], none, 1⟩ rfl rfl rfl rfl⟩

end ReactiveFunction
